import Mathlib

/-!
Verification of the casting backend's session/pairing lifecycle and audio
relay, shallowly embedded from `apps/backend/cast/sessions.py`,
`apps/backend/cast/audio_relay.py` and the WebSocket handler in
`apps/backend/cast/main.py`.

Time is modelled as a `Nat` instant passed explicitly to every operation
(Python reads `datetime.now(UTC)` at each call site); bytes are modelled as
`Nat` values, byte strings as `List Nat`; Python `dict` objects are modelled
as insertion-ordered association lists, which matches the guaranteed
iteration order of Python dictionaries.
-/

/-- A casting session (`sessions.py`, dataclass `Session`); `device_info` is a
free-form string map, modelled as an insertion-ordered association list. -/
structure Session where
  id : String
  pin : String
  created_at : Nat
  expires_at : Nat
  paired : Bool := false
  paired_at : Option Nat := none
  device_info : List (String × String) := []
  signaling_state : String := "new"
deriving DecidableEq, Repr

/-- `Session.is_expired`: Python `datetime.now(UTC) > self.expires_at`,
with the current instant passed explicitly. -/
def Session.is_expired (s : Session) (now : Nat) : Bool :=
  decide (s.expires_at < now)

/-- `Session.is_active`: paired and not expired. -/
def Session.is_active (s : Session) (now : Nat) : Bool :=
  s.paired && ! s.is_expired now

/-- The `SessionManager._sessions` dict, as an insertion-ordered list of
sessions keyed by their `id` field. -/
def SessionStore : Type := List Session

/-- Python dict assignment `self._sessions[session_id] = session`: replace in
place if the key is present, otherwise append at the end. -/
def dictInsert (st : List Session) (s : Session) : List Session :=
  if st.any (fun t => t.id == s.id) then
    st.map (fun t => if t.id == s.id then s else t)
  else
    st ++ [s]

/-- `SessionManager.create_session`, with the random `id` and `pin` and the
current instant and configured TTL passed as explicit parameters. -/
def create_session (st : List Session) (sid pin : String) (now ttl : Nat) :
    Session × List Session :=
  let s : Session :=
    { id := sid, pin := pin, created_at := now, expires_at := now + ttl }
  (s, dictInsert st s)

/-- `SessionManager.get_session`: dict lookup by id, then the expiry filter. -/
def get_session (st : List Session) (now : Nat) (sid : String) :
    Option Session :=
  match st.find? (fun s => s.id == sid) with
  | some s => if s.is_expired now then none else some s
  | none => none

/-- `SessionManager.get_session_by_pin`: linear scan in insertion order for the
first live session with the given PIN. -/
def get_session_by_pin (st : List Session) (now : Nat) (pin : String) :
    Option Session :=
  st.find? (fun s => s.pin == pin && ! s.is_expired now)

/-- `SessionManager.pair_session`: fails without mutation when `get_session`
is absent; otherwise sets `paired`, overwrites `paired_at` with the current
instant, and replaces `device_info` only when the supplied dict is truthy
(present and non-empty, Python `if device_info:`). -/
def pair_session (st : List Session) (now : Nat) (sid : String)
    (device_info : Option (List (String × String))) : Bool × List Session :=
  match get_session st now sid with
  | none => (false, st)
  | some _ =>
    (true, st.map (fun s =>
      if s.id == sid then
        { s with
          paired := true
          paired_at := some now
          device_info :=
            match device_info with
            | some l => if l.isEmpty then s.device_info else l
            | none => s.device_info }
      else s))

/-- `SessionManager.get_all_sessions`: every not-expired session. -/
def get_all_sessions (st : List Session) (now : Nat) : List Session :=
  st.filter (fun s => ! s.is_expired now)

/-- `SessionManager.get_paired_sessions`: every active (paired, not expired)
session. -/
def get_paired_sessions (st : List Session) (now : Nat) : List Session :=
  st.filter (fun s => s.is_active now)

/-- Modelled from the spec: `SessionManager.reset_sessions` is invoked by the
`DELETE /v1/cast/sessions` endpoint in `main.py` but the method itself is not
present in `sessions.py` under `src/`; the spec's `reset_all() -> count`
unconditionally removes every tracked Session (including unexpired ones) and
returns how many were removed. -/
def reset_sessions (st : List Session) : Nat × List Session :=
  (st.length, [])

/-! ### Helper lemmas about the session store -/

theorem find_map_replace (s : Session) :
    ∀ st : List Session, st.any (fun t => t.id == s.id) = true →
      (st.map (fun t => if t.id == s.id then s else t)).find?
        (fun t => t.id == s.id) = some s := by
  intro st
  induction st with
  | nil => intro h; simp at h
  | cons a st ih =>
    intro h
    by_cases ha : a.id = s.id
    · simp [List.find?, ha]
    · have ha2 : (a.id == s.id) = false := by simp [ha]
      simp only [List.map_cons, ha2, if_neg, Bool.false_eq_true, ↓reduceIte]
      rw [List.find?_cons_of_neg _ (by simp [ha])]
      apply ih
      simpa [List.any_cons, ha2] using h

theorem find_dictInsert (st : List Session) (s : Session) :
    (dictInsert st s).find? (fun t => t.id == s.id) = some s := by
  unfold dictInsert
  by_cases h : st.any (fun t => t.id == s.id) = true
  · simp only [h, if_pos]
    exact find_map_replace s st h
  · simp only [h, Bool.false_eq_true, ↓reduceIte]
    rw [List.find?_append]
    have hnone : st.find? (fun t => t.id == s.id) = none := by
      rw [List.find?_eq_none]
      intro x hx hpx
      exact h (List.any_eq_true.mpr ⟨x, hx, hpx⟩)
    simp [hnone, List.find?]

/-! ### Claim C4 -/

/-- Demonstration session for the expiry boundary: expires at instant 10. -/
def demoBoundarySession : Session :=
  { id := "a", pin := "123456", created_at := 0, expires_at := 10 }

/-- C4 counterexample: the claim says `get` reports the session absent once
`now >= expires_at`, "including exactly at the boundary instant
`now == expires_at`"; but expiry is strict (`now > expires_at`), so at
`now = expires_at = 10` the session is still returned. -/
theorem get_session_boundary_counterexample :
    get_session [demoBoundarySession] 10 "a" = some demoBoundarySession := by
  decide

/-- C4 (amended): for every created session, `get(id)` returns the session
while `now <= expires_at` (in particular immediately after `create()`), and
returns absent once `now > expires_at`, whether or not the background reaper
has removed it; at the boundary instant `now == expires_at` the session is
still returned, because expiry is the strict comparison `now > expires_at`. -/
theorem get_session_after_create (st : List Session) (sid pin : String)
    (now ttl t : Nat) :
    get_session (create_session st sid pin now ttl).2 t sid =
      (if t ≤ now + ttl then some (create_session st sid pin now ttl).1
       else none) := by
  have h := find_dictInsert st
    { id := sid, pin := pin, created_at := now, expires_at := now + ttl }
  unfold get_session create_session
  rw [h]
  dsimp only
  simp only [Session.is_expired, decide_eq_true_eq]
  rcases Nat.lt_or_ge (now + ttl) t with hlt | hge
  · rw [if_pos hlt, if_neg (by omega)]
  · rw [if_neg (by omega), if_pos (by omega)]

/-! ### Claim C2 -/

/-- C2: the bulk reset operation removes every tracked session, including
unexpired and paired ones, and returns the number of sessions removed;
afterwards `get`, `get_by_pin`, `list_active` and `list_paired` all report
no sessions. -/
theorem reset_sessions_removes_all (st : List Session) (now : Nat)
    (sid pin : String) :
    (reset_sessions st).1 = st.length ∧
    (reset_sessions st).2 = [] ∧
    get_session (reset_sessions st).2 now sid = none ∧
    get_session_by_pin (reset_sessions st).2 now pin = none ∧
    get_all_sessions (reset_sessions st).2 now = [] ∧
    get_paired_sessions (reset_sessions st).2 now = [] :=
  ⟨rfl, rfl, rfl, rfl, rfl, rfl⟩

/-! ### Claim C3 -/

/-- Demonstration session that was first paired at instant 5. -/
def demoRepairSession : Session :=
  { id := "a", pin := "123456", created_at := 0, expires_at := 100,
    paired := true, paired_at := some 5 }

/-- C3 counterexample: the claim says a second pairing call leaves a non-null
`paired_at` unchanged, but re-pairing an already-paired session at instant 7
overwrites `paired_at` from `some 5` to `some 7` (and reports success). -/
theorem paired_at_overwritten_counterexample :
    demoRepairSession.paired_at = some 5 ∧
    (pair_session [demoRepairSession] 7 "a" none).1 = true ∧
    (pair_session [demoRepairSession] 7 "a" none).2.map Session.paired_at
      = [some 7] := by
  decide

/-- C3 (amended): `paired_at` is null until the first successful pairing call
and is never cleared back to null, but every successful pairing call on a
session (including re-pairing an already-paired one) overwrites `paired_at`
with the current instant: after any pairing call, each stored session either
kept its previous `paired_at` or has it set to `now`, and the session that
was successfully paired has `paired_at = some now`. -/
theorem paired_at_set_or_preserved (st : List Session) (now : Nat)
    (sid : String) (di : Option (List (String × String))) (s2 : Session)
    (hmem : s2 ∈ (pair_session st now sid di).2) :
    (s2.paired_at = some now ∨
      ∃ s1, s1 ∈ st ∧ s1.id = s2.id ∧ s2.paired_at = s1.paired_at) ∧
    ((pair_session st now sid di).1 = true → s2.id = sid →
      s2.paired_at = some now) := by
  rcases hg : get_session st now sid with _ | s0
  · simp only [pair_session, hg] at hmem ⊢
    refine ⟨Or.inr ⟨s2, hmem, rfl, rfl⟩, ?_⟩
    intro hfalse
    simp at hfalse
  · simp only [pair_session, hg] at hmem ⊢
    rw [List.mem_map] at hmem
    obtain ⟨s1, hs1, hf⟩ := hmem
    by_cases hb : s1.id = sid
    · have hbb : (s1.id == sid) = true := by simp [hb]
      rw [← hf]
      simp [hbb]
    · have hbb : (s1.id == sid) = false := by simp [hb]
      rw [← hf]
      simp only [hbb, Bool.false_eq_true, ↓reduceIte]
      refine ⟨Or.inr ⟨s1, hs1, rfl, rfl⟩, ?_⟩
      intro _ hsid
      exact absurd hsid hb

/-- The session of `paired_at_overwritten_counterexample` after being
re-paired at instant 7. -/
def demoRepairUpdated : Session :=
  { id := "a", pin := "123456", created_at := 0, expires_at := 100,
    paired := true, paired_at := some 7 }

/-- Witness for C3 (amended), at the concrete re-pairing input. -/
theorem paired_at_set_or_preserved_witness :
    demoRepairUpdated.paired_at = some 7 :=
  (paired_at_set_or_preserved [demoRepairSession] 7 "a" none
    demoRepairUpdated (by decide)).2 (by decide) (by decide)

/-! ### Claim C5 -/

/-- C5: `get_by_pin` never returns a session whose `expires_at` has passed
(strictly, `expires_at < now`), even before the reaper runs; and when two or
more live sessions share a PIN it deterministically returns the first match
in insertion order. -/
theorem get_by_pin_live_first_match :
    (∀ (st : List Session) (now : Nat) (pin : String) (s : Session),
      get_session_by_pin st now pin = some s → ¬ (s.expires_at < now)) ∧
    (∀ (now : Nat) (pin : String) (pre : List Session) (s : Session)
        (post : List Session),
      (∀ t ∈ pre, ¬ (t.pin = pin ∧ ¬ (t.expires_at < now))) →
      s.pin = pin → ¬ (s.expires_at < now) →
      get_session_by_pin (pre ++ s :: post) now pin = some s) := by
  constructor
  · intro st now pin s h
    have hp := List.find?_some h
    simp only [Bool.and_eq_true] at hp
    simpa [Session.is_expired] using hp.2
  · intro now pin pre s post
    induction pre with
    | nil =>
      intro _ hpin hlive
      unfold get_session_by_pin
      rw [List.nil_append]
      rw [List.find?_cons_of_pos _ (by simp [Session.is_expired, hpin, hlive])]
    | cons a pre ih =>
      intro hpre hpin hlive
      have ha := hpre a (List.mem_cons_self a pre)
      have hfa : (a.pin == pin && ! a.is_expired now) = false := by
        by_cases hap : a.pin = pin
        · have hae : a.expires_at < now := by
            by_contra hne
            exact ha ⟨hap, hne⟩
          simp [Session.is_expired, hap, hae]
        · simp [hap]
      unfold get_session_by_pin
      rw [List.cons_append, List.find?_cons_of_neg _ (by simp [hfa])]
      exact ih (fun t ht => hpre t (List.mem_cons_of_mem a ht)) hpin hlive

/-- Expired demonstration session holding PIN 123456. -/
def demoExpiredPinSession : Session :=
  { id := "e", pin := "123456", created_at := 0, expires_at := 3 }

/-- Live demonstration session holding the same PIN 123456. -/
def demoLivePinSession : Session :=
  { id := "l", pin := "123456", created_at := 0, expires_at := 100 }

/-- Witness for C5: with an expired session ahead of a live one on the same
PIN, lookup at instant 10 skips the expired one and returns the live one. -/
theorem get_by_pin_live_first_match_witness :
    get_session_by_pin ([demoExpiredPinSession] ++ demoLivePinSession :: [])
      10 "123456" = some demoLivePinSession :=
  get_by_pin_live_first_match.2 10 "123456" [demoExpiredPinSession]
    demoLivePinSession [] (by decide) (by decide) (by decide)

/-! ### Claim C9 -/

/-- Demonstration session already paired with stored device metadata. -/
def demoDeviceSession : Session :=
  { id := "a", pin := "123456", created_at := 0, expires_at := 100,
    paired := true, paired_at := some 1,
    device_info := [("model", "Pixel")] }

/-- C9 counterexample: the claim says a successful pair supplying the empty
map replaces `device_info` with the empty map; but the truthiness test
(`if device_info:`) skips the replacement, so the previous entries are
retained while the call still reports success. -/
theorem device_info_empty_map_counterexample :
    (pair_session [demoDeviceSession] 2 "a" (some [])).1 = true ∧
    (pair_session [demoDeviceSession] 2 "a" (some [])).2.map
      Session.device_info = [[("model", "Pixel")]] := by
  decide

/-- C9 (amended): a successful pairing call that supplies a non-empty
`device_info` map replaces the stored map wholesale with exactly the supplied
map (no merging); supplying the empty map leaves the previously stored
`device_info` unchanged. -/
theorem device_info_replace_nonempty (st : List Session) (now : Nat)
    (sid : String) (l : List (String × String)) (s2 : Session)
    (hok : (pair_session st now sid (some l)).1 = true)
    (hmem : s2 ∈ (pair_session st now sid (some l)).2)
    (hid : s2.id = sid) :
    (l ≠ [] → s2.device_info = l) ∧
    (l = [] → ∃ s1, s1 ∈ st ∧ s1.id = sid ∧
      s2.device_info = s1.device_info) := by
  rcases hg : get_session st now sid with _ | s0
  · simp only [pair_session, hg] at hok
    simp at hok
  · simp only [pair_session, hg] at hmem
    rw [List.mem_map] at hmem
    obtain ⟨s1, hs1, hf⟩ := hmem
    by_cases hb : s1.id = sid
    · have hbb : (s1.id == sid) = true := by simp [hb]
      constructor
      · intro hne
        have hl : l.isEmpty = false := by
          cases l with
          | nil => exact absurd rfl hne
          | cons x xs => rfl
        rw [← hf]
        simp [hbb, hl]
      · intro heq
        subst heq
        refine ⟨s1, hs1, hb, ?_⟩
        rw [← hf]
        simp [hbb]
    · have hbb : (s1.id == sid) = false := by simp [hb]
      rw [← hf] at hid
      simp only [hbb, Bool.false_eq_true, ↓reduceIte] at hid
      exact absurd hid hb

/-- The session of `demoDeviceSession` after a successful re-pair at instant 2
supplying the non-empty map `[("os", "iOS")]`. -/
def demoDeviceUpdated : Session :=
  { id := "a", pin := "123456", created_at := 0, expires_at := 100,
    paired := true, paired_at := some 2,
    device_info := [("os", "iOS")] }

/-- Witness for C9 (amended) at a concrete non-empty replacement input. -/
theorem device_info_replace_nonempty_witness :
    demoDeviceUpdated.device_info = [("os", "iOS")] :=
  (device_info_replace_nonempty [demoDeviceSession] 2 "a" [("os", "iOS")]
    demoDeviceUpdated (by decide) (by decide) (by decide)).1 (by decide)

/-! ### Audio buffer (`audio_relay.py`) -/

/-- Fixed stream format of `AudioBuffer`: 16 kHz. -/
def sample_rate : Nat := 16000

/-- Fixed stream format of `AudioBuffer`: mono. -/
def channels : Nat := 1

/-- Fixed stream format of `AudioBuffer`: 16-bit PCM. -/
def sample_width : Nat := 2

/-- `bytes_per_second = sample_rate * channels * sample_width`. -/
def bytes_per_second : Nat := sample_rate * channels * sample_width

/-- `AudioBuffer`: the ordered chunk list plus the configured maximum
duration, in whole seconds (source default 30.0). -/
structure AudioBuffer where
  chunks : List (List Nat)
  max_duration : Nat
deriving DecidableEq, Repr

/-- `AudioBuffer.__init__(max_duration_seconds)`: empty chunk list. -/
def mkAudioBuffer (max_duration : Nat) : AudioBuffer :=
  { chunks := [], max_duration := max_duration }

/-- `sum(len(c) for c in chunks)`. -/
def sumLen (cs : List (List Nat)) : Nat := (cs.map List.length).sum

/-- Current total of buffered bytes. -/
def AudioBuffer.total_bytes (b : AudioBuffer) : Nat := sumLen b.chunks

/-- `max_bytes = int(bytes_per_second * max_duration)`. -/
def AudioBuffer.max_bytes (b : AudioBuffer) : Nat :=
  bytes_per_second * b.max_duration

/-- The eviction loop of `add_chunk`: pop whole chunks from the head while the
running byte total exceeds the bound and chunks remain. -/
def evict (maxB : Nat) : Nat → List (List Nat) → List (List Nat)
  | _, [] => []
  | total, c :: rest =>
    if maxB < total then evict maxB (total - c.length) rest else c :: rest

/-- `AudioBuffer.add_chunk`: append the chunk, then evict oldest whole chunks
while the total exceeds `max_bytes`. -/
def AudioBuffer.add_chunk (b : AudioBuffer) (chunk : List Nat) : AudioBuffer :=
  if b.max_bytes < sumLen (b.chunks ++ [chunk]) then
    { b with chunks :=
        evict b.max_bytes (sumLen (b.chunks ++ [chunk])) (b.chunks ++ [chunk]) }
  else
    { b with chunks := b.chunks ++ [chunk] }

/-- `AudioBuffer.get_audio_bytes`: concatenation of all buffered chunks. -/
def AudioBuffer.get_audio_bytes (b : AudioBuffer) : List Nat :=
  b.chunks.flatten

/-- Iterated `add_chunk` over a stream of chunks arriving in order. -/
def AudioBuffer.addAll (b : AudioBuffer) (cs : List (List Nat)) : AudioBuffer :=
  cs.foldl AudioBuffer.add_chunk b

/-! ### Helper lemmas about the audio buffer -/

theorem sumLen_append (cs ds : List (List Nat)) :
    sumLen (cs ++ ds) = sumLen cs + sumLen ds := by
  simp [sumLen]

theorem sumLen_cons (c : List Nat) (cs : List (List Nat)) :
    sumLen (c :: cs) = c.length + sumLen cs := by
  simp [sumLen]

theorem evict_suffix (maxB : Nat) :
    ∀ (cs : List (List Nat)) (total : Nat), evict maxB total cs <:+ cs := by
  intro cs
  induction cs with
  | nil =>
    intro total
    simp only [evict]
    exact List.suffix_refl _
  | cons c rest ih =>
    intro total
    simp only [evict]
    by_cases hc : maxB < total
    · rw [if_pos hc]
      exact (ih _).trans (List.suffix_cons c rest)
    · rw [if_neg hc]

theorem sumLen_evict (maxB : Nat) :
    ∀ (cs : List (List Nat)) (total : Nat), total = sumLen cs →
      sumLen (evict maxB total cs) ≤ maxB := by
  intro cs
  induction cs with
  | nil =>
    intro total h
    simp only [evict]
    simp [sumLen]
  | cons c rest ih =>
    intro total h
    have hsum := sumLen_cons c rest
    simp only [evict]
    by_cases hc : maxB < total
    · rw [if_pos hc]
      exact ih (total - c.length) (by omega)
    · rw [if_neg hc]
      omega

theorem add_chunk_total_le (b : AudioBuffer) (chunk : List Nat) :
    (b.add_chunk chunk).total_bytes ≤ b.max_bytes := by
  unfold AudioBuffer.add_chunk
  by_cases hc : b.max_bytes < sumLen (b.chunks ++ [chunk])
  · rw [if_pos hc]
    exact sumLen_evict b.max_bytes _ _ rfl
  · rw [if_neg hc]
    show sumLen (b.chunks ++ [chunk]) ≤ b.max_bytes
    omega

theorem add_chunk_suffix (b : AudioBuffer) (chunk : List Nat) :
    (b.add_chunk chunk).chunks <:+ (b.chunks ++ [chunk]) := by
  unfold AudioBuffer.add_chunk
  by_cases hc : b.max_bytes < sumLen (b.chunks ++ [chunk])
  · rw [if_pos hc]
    exact evict_suffix _ _ _
  · rw [if_neg hc]

theorem suffix_append_same {α : Type} {l1 l2 : List α} (h : l1 <:+ l2)
    (l3 : List α) : l1 ++ l3 <:+ l2 ++ l3 := by
  obtain ⟨t, ht⟩ := h
  exact ⟨t, by rw [← List.append_assoc, ht]⟩

theorem flatten_suffix {l1 l2 : List (List Nat)} (h : l1 <:+ l2) :
    l1.flatten <:+ l2.flatten := by
  obtain ⟨t, ht⟩ := h
  exact ⟨t.flatten, by rw [← List.flatten_append, ht]⟩

theorem addAll_chunks_suffix :
    ∀ (cs : List (List Nat)) (b : AudioBuffer),
      (b.addAll cs).chunks <:+ (b.chunks ++ cs) := by
  intro cs
  induction cs with
  | nil =>
    intro b
    show b.chunks <:+ b.chunks ++ []
    rw [List.append_nil]
  | cons c cs ih =>
    intro b
    have h1 := ih (b.add_chunk c)
    have h3 := suffix_append_same (add_chunk_suffix b c) cs
    have h4 : (b.chunks ++ [c]) ++ cs = b.chunks ++ c :: cs := by
      rw [List.append_assoc]
      rfl
    show ((b.add_chunk c).addAll cs).chunks <:+ b.chunks ++ c :: cs
    rw [← h4]
    exact h1.trans h3

/-! ### Claim C6 -/

/-- C6: after every `add_chunk` call the total of buffered bytes is at most
`max_duration * sample_rate * channels * sample_width` (`max_bytes`), and the
resulting chunk list is a suffix of the old chunks followed by the new one:
eviction removes only whole chunks from the head and never splits a chunk. -/
theorem add_chunk_bound_and_suffix (b : AudioBuffer) (chunk : List Nat) :
    (b.add_chunk chunk).total_bytes ≤ b.max_bytes ∧
    (b.add_chunk chunk).chunks <:+ (b.chunks ++ [chunk]) :=
  ⟨add_chunk_total_le b chunk, add_chunk_suffix b chunk⟩

/-! ### Claim C10 -/

theorem evict_oversized (maxB : Nat) (c : List Nat) (hc : maxB < c.length) :
    ∀ (cs : List (List Nat)) (total : Nat), total = sumLen (cs ++ [c]) →
      evict maxB total (cs ++ [c]) = [] := by
  intro cs
  induction cs with
  | nil =>
    intro total h
    have h1 : sumLen ([] ++ [c]) = c.length := by simp [sumLen]
    simp only [List.nil_append] at h1 h ⊢
    simp only [evict]
    rw [if_pos (by omega)]
  | cons a cs ih =>
    intro total h
    simp only [List.cons_append] at h ⊢
    have h1 := sumLen_cons a (cs ++ [c])
    have h2 := sumLen_append cs [c]
    have h3 : sumLen [c] = c.length := by simp [sumLen]
    simp only [evict]
    rw [if_pos (by omega)]
    exact ih (total - a.length) (by omega)

/-- C10: a single chunk larger by itself than the buffer's byte bound is
evicted together with everything before it, leaving the buffer empty — one
oversized append discards all audio, including the bytes just received. -/
theorem oversized_chunk_empties_buffer (b : AudioBuffer) (chunk : List Nat)
    (h : b.max_bytes < chunk.length) :
    (b.add_chunk chunk).chunks = [] := by
  unfold AudioBuffer.add_chunk
  have h2 := sumLen_append b.chunks [chunk]
  have h3 : sumLen [chunk] = chunk.length := by simp [sumLen]
  rw [if_pos (by omega)]
  exact evict_oversized b.max_bytes chunk h b.chunks _ rfl

/-- Buffer with bound 0 bytes and some previous content. -/
def demoTinyBuffer : AudioBuffer := { chunks := [[1, 2]], max_duration := 0 }

/-- Witness for C10 at a concrete oversized chunk. -/
theorem oversized_chunk_empties_buffer_witness :
    demoTinyBuffer.max_bytes < 1 ∧
    (demoTinyBuffer.add_chunk [7]).chunks = [] :=
  ⟨by decide, oversized_chunk_empties_buffer demoTinyBuffer [7] (by decide)⟩

/-! ### Audio relay (`AudioRelay`) and Claim C7 -/

/-- `AudioRelay.add_audio_chunk`: no-op when no stream is active for the
session id; otherwise appends to exactly that session's buffer. -/
def add_audio_chunk (streams : List (String × AudioBuffer)) (sid : String)
    (chunk : List Nat) : List (String × AudioBuffer) :=
  if streams.any (fun p => p.1 == sid) then
    streams.map (fun p => if p.1 == sid then (p.1, p.2.add_chunk chunk) else p)
  else streams

/-- `AudioRelay.get_buffer`: dict lookup of a session's buffer. -/
def get_buffer (streams : List (String × AudioBuffer)) (sid : String) :
    Option AudioBuffer :=
  (streams.find? (fun p => p.1 == sid)).map (fun p => p.2)

theorem find_map_other_key (sid sid2 : String) (chunk : List Nat)
    (h : sid ≠ sid2) :
    ∀ streams : List (String × AudioBuffer),
      (streams.map
        (fun p => if p.1 == sid then (p.1, p.2.add_chunk chunk) else p)).find?
          (fun p => p.1 == sid2) =
        streams.find? (fun p => p.1 == sid2) := by
  intro streams
  induction streams with
  | nil => rfl
  | cons a rest ih =>
    by_cases h1 : a.1 = sid
    · have hb : (a.1 == sid) = true := by simp [h1]
      have hb2 : (a.1 == sid2) = false := by
        simp only [beq_eq_false_iff_ne, ne_eq, h1]
        exact h
      simp only [List.map_cons, hb, ↓reduceIte]
      rw [List.find?_cons_of_neg _ (by simp [hb2]),
        List.find?_cons_of_neg _ (by simp [hb2])]
      exact ih
    · have hb : (a.1 == sid) = false := by simp [h1]
      simp only [List.map_cons, hb, Bool.false_eq_true, ↓reduceIte]
      by_cases h2 : a.1 = sid2
      · have hb2 : (a.1 == sid2) = true := by simp [h2]
        rw [List.find?_cons_of_pos _ (by simp [hb2]),
          List.find?_cons_of_pos _ (by simp [hb2])]
      · have hb2 : (a.1 == sid2) = false := by simp [h2]
        rw [List.find?_cons_of_neg _ (by simp [hb2]),
          List.find?_cons_of_neg _ (by simp [hb2])]
        exact ih

/-- C7: starting from a fresh buffer, after any sequence of chunks appended
in order the buffer's concatenated contents are a contiguous suffix of the
concatenation of the appended chunks (eviction only removes from the head,
never reorders); and appending to one session's stream never changes any
other session's buffer. -/
theorem audio_stream_suffix_no_crosstalk :
    (∀ (md : Nat) (cs : List (List Nat)),
      ((mkAudioBuffer md).addAll cs).get_audio_bytes <:+ cs.flatten) ∧
    (∀ (streams : List (String × AudioBuffer)) (sid sid2 : String)
        (chunk : List Nat), sid ≠ sid2 →
      get_buffer (add_audio_chunk streams sid chunk) sid2 =
        get_buffer streams sid2) := by
  constructor
  · intro md cs
    have h := addAll_chunks_suffix cs (mkAudioBuffer md)
    simp only [mkAudioBuffer, List.nil_append] at h
    exact flatten_suffix h
  · intro streams sid sid2 chunk h
    unfold add_audio_chunk get_buffer
    by_cases ha : streams.any (fun p => p.1 == sid) = true
    · rw [if_pos ha, find_map_other_key sid sid2 chunk h streams]
    · rw [if_neg ha]

/-- Demonstration stream buffer for session a. -/
def demoBufferA : AudioBuffer := { chunks := [[1]], max_duration := 30 }

/-- Demonstration stream buffer for session b. -/
def demoBufferB : AudioBuffer := { chunks := [[2]], max_duration := 30 }

/-- Witness for C7: appending on stream a leaves stream b untouched. -/
theorem audio_stream_suffix_no_crosstalk_witness :
    get_buffer (add_audio_chunk [("a", demoBufferA), ("b", demoBufferB)]
      "a" [3, 4]) "b" = some demoBufferB :=
  (audio_stream_suffix_no_crosstalk.2 [("a", demoBufferA), ("b", demoBufferB)]
    "a" "b" [3, 4] (by decide)).trans (by decide)

/-! ### WAV container and Claim C8 -/

/-- Two-byte little-endian encoding. -/
def le16 (n : Nat) : List Nat := [n % 256, n / 256 % 256]

/-- Four-byte little-endian encoding. -/
def le32 (n : Nat) : List Nat :=
  [n % 256, n / 256 % 256, n / 65536 % 256, n / 16777216 % 256]

/-- Output of the Python stdlib `wave` writer for the buffer's fixed format
(16-bit mono 16 kHz PCM): the canonical 44-byte RIFF/WAVE header, with both
size fields patched to the written data length, followed by the raw data. -/
def wavBytes (d : List Nat) : List Nat :=
  [82, 73, 70, 70] ++ le32 (36 + d.length) ++
  [87, 65, 86, 69] ++ [102, 109, 116, 32] ++ le32 16 ++ le16 1 ++
  le16 channels ++ le32 sample_rate ++ le32 bytes_per_second ++
  le16 (channels * sample_width) ++ le16 (sample_width * 8) ++
  [100, 97, 116, 97] ++ le32 d.length ++ d

/-- `AudioBuffer.to_wav_bytes`: empty result for an empty buffer, otherwise
the WAV container around the buffered PCM data. -/
def AudioBuffer.to_wav_bytes (b : AudioBuffer) : List Nat :=
  if b.get_audio_bytes = [] then [] else wavBytes b.get_audio_bytes

/-- C8: `to_wav()` on an empty buffer returns a zero-length byte string (not
a header with no data); on a non-empty buffer the first 4 bytes are the
ASCII RIFF marker, bytes 8 through 12 are the ASCII WAVE marker, and the
44-byte header is followed by exactly the buffered PCM contents. -/
theorem to_wav_markers (b : AudioBuffer) :
    (b.get_audio_bytes = [] → b.to_wav_bytes = []) ∧
    (b.get_audio_bytes ≠ [] →
      b.to_wav_bytes.take 4 = [82, 73, 70, 70] ∧
      (b.to_wav_bytes.drop 8).take 4 = [87, 65, 86, 69] ∧
      b.to_wav_bytes.drop 44 = b.get_audio_bytes) := by
  constructor
  · intro h
    unfold AudioBuffer.to_wav_bytes
    rw [if_pos h]
  · intro h
    unfold AudioBuffer.to_wav_bytes
    rw [if_neg h]
    exact ⟨rfl, rfl, rfl⟩

/-- Non-empty demonstration buffer holding two PCM bytes. -/
def demoWavBuffer : AudioBuffer := (mkAudioBuffer 30).add_chunk [1, 2]

/-- Witness for C8 on a concrete empty and a concrete non-empty buffer. -/
theorem to_wav_markers_witness :
    (mkAudioBuffer 30).to_wav_bytes = [] ∧
    demoWavBuffer.to_wav_bytes.take 4 = [82, 73, 70, 70] ∧
    (demoWavBuffer.to_wav_bytes.drop 8).take 4 = [87, 65, 86, 69] :=
  ⟨(to_wav_markers (mkAudioBuffer 30)).1 (by decide),
   ((to_wav_markers demoWavBuffer).2 (by decide)).1,
   ((to_wav_markers demoWavBuffer).2 (by decide)).2.1⟩

/-! ### WebSocket signaling handler (`main.py`, `websocket_endpoint`) -/

/-- An outbound JSON reply of the handler, tagged by its `type` field. -/
inductive WsReply where
  | audio_ack (bytes : Nat)
  | ack (message_type : Option String)
  | error (message : String)
deriving DecidableEq, Repr

/-- The `type` field of a reply. -/
def WsReply.rtype : WsReply → String
  | .audio_ack _ => "audio_ack"
  | .ack _ => "ack"
  | .error _ => "error"

/-- An inbound event of the receive loop. A text frame carries the result of
`json.loads` on its payload at the transport-decoding boundary: `some obj`
for a well-formed JSON object, `none` when the payload is not valid JSON
(where `json.loads` raises). `recvFailure` is an exception from `receive()`
itself (including a client disconnect), which the loop catches and breaks
on. -/
inductive WsInbound where
  | binary (payload : List Nat)
  | text (decoded : Option (List (String × String)))
  | recvFailure
deriving DecidableEq, Repr

/-- `data.get` of the decoded JSON object. -/
def lookupKey (obj : List (String × String)) (k : String) : Option String :=
  (obj.find? (fun p => p.1 == k)).map (fun p => p.2)

/-- Effect of processing one inbound event: replies sent on this connection,
close code if the handler closed the connection, and whether the receive
loop continues. -/
structure WsStep where
  sent : List WsReply
  closeCode : Option Nat
  continues : Bool
deriving DecidableEq, Repr

/-- One iteration of the receive loop. A binary frame is forwarded to the
audio relay and acknowledged (skipped silently when the relay is not
initialized). A well-formed text frame is acknowledged by echoing its `type`
field. Malformed JSON raises out of the loop into the outer handler, which
closes the connection with code 1011; a `receive()` failure breaks the loop
without closing. -/
def handleFrame (relayUp : Bool) : WsInbound → WsStep
  | .binary payload =>
    if relayUp then
      { sent := [.audio_ack payload.length], closeCode := none,
        continues := true }
    else
      { sent := [], closeCode := none, continues := true }
  | .text dec =>
    match dec with
    | some obj =>
      { sent := [.ack (lookupKey obj "type")], closeCode := none,
        continues := true }
    | none =>
      { sent := [], closeCode := some 1011, continues := false }
  | .recvFailure => { sent := [], closeCode := none, continues := false }

/-- Cumulative observable behaviour of one accepted connection. -/
structure WsTrace where
  sent : List WsReply
  closeCode : Option Nat
deriving DecidableEq, Repr

/-- The receive loop over a sequence of inbound events: processes events in
order until one ends the loop; events after that are never processed. -/
def runWs (relayUp : Bool) : List WsInbound → WsTrace
  | [] => { sent := [], closeCode := none }
  | f :: fs =>
    if (handleFrame relayUp f).continues then
      { sent := (handleFrame relayUp f).sent ++ (runWs relayUp fs).sent,
        closeCode := (runWs relayUp fs).closeCode }
    else
      { sent := (handleFrame relayUp f).sent,
        closeCode := (handleFrame relayUp f).closeCode }

/-! ### Claim C1 -/

/-- C1 counterexample: on a text frame with malformed JSON the handler sends
no reply at all (in particular no `error` reply), closes the connection with
code 1011, and never processes the following frame — the claim says it
replies with `error`, continues the loop, and never closes. -/
theorem ws_malformed_json_counterexample :
    runWs true [WsInbound.text none,
      WsInbound.text (some [("type", "offer")])] =
      { sent := [], closeCode := some 1011 } := by
  decide

/-- C1 (amended): for every accepted connection, a text frame whose payload
is not valid JSON makes the parse exception escape the receive loop: the
handler closes the connection with code 1011 without sending any reply for
that frame, and no later frame is processed — only the replies of the
earlier frames are ever sent. -/
theorem ws_malformed_json_closes (relayUp : Bool) (pre post : List WsInbound)
    (hpre : ∀ f ∈ pre, (handleFrame relayUp f).continues = true) :
    runWs relayUp (pre ++ WsInbound.text none :: post) =
      { sent := (runWs relayUp pre).sent, closeCode := some 1011 } := by
  induction pre with
  | nil =>
    simp [runWs, handleFrame]
  | cons f pre ih =>
    have hf := hpre f (List.mem_cons_self f pre)
    have hrest := ih (fun g hg => hpre g (List.mem_cons_of_mem f hg))
    simp only [List.cons_append, runWs, hf, ↓reduceIte, List.append_eq, hrest]

/-- Witness for C1 (amended): a binary frame followed by a malformed text
frame yields only the audio acknowledgement and then the 1011 close. -/
theorem ws_malformed_json_closes_witness :
    runWs true ([WsInbound.binary [0, 0]] ++ WsInbound.text none :: []) =
      { sent := [WsReply.audio_ack 2], closeCode := some 1011 } :=
  (ws_malformed_json_closes true [WsInbound.binary [0, 0]] []
    (by decide)).trans (by decide)
